import Mathlib

/-!
Verification development for the `dnscrawler` DNS resolution engine
(`pkg/dns/resolver.go`).  The Go code is shallowly embedded: every network
interaction is abstracted as an oracle `exchange : Query → Option Msg`
(`none` models a transport error, mirroring `client.Exchange` returning a
non-nil `err`), and `net.LookupHost` is abstracted as an oracle
`String → List String`.  Go strings are modelled as Lean `String`s over
their character lists; Go byte/char distinctions are immaterial for the
properties considered (all fixed protocol strings are ASCII).
-/

namespace DnsCrawler

/-! ### Go string primitives, modelled structurally over character lists -/

/-- Splitting a character list at every occurrence of a separator character,
keeping empty segments; the embedding of `strings.Split(s, ".")` works on
`s.toList`.  `acc` is the current segment, reversed. -/
def splitOnCharAux (sep : Char) : List Char → List Char → List (List Char)
  | [], acc => [acc.reverse]
  | c :: rest, acc =>
    if c = sep then acc.reverse :: splitOnCharAux sep rest []
    else splitOnCharAux sep rest (c :: acc)

/-- `strings.Split(s, ".")` (single-character separator). -/
def goSplitDot (s : String) : List String :=
  (splitOnCharAux '.' s.toList []).map String.mk

/-- `strings.TrimSuffix(s, ".")`: drop one trailing dot if present. -/
def goTrimSuffixDot (s : String) : String :=
  if s.toList.getLast? = some '.' then String.mk s.toList.dropLast else s

/-- `dns.Fqdn`: append a trailing dot unless one is already present.
(The miekg implementation also handles escaped dots, which never arise for
the inputs this program produces.) -/
def dnsFqdn (s : String) : String :=
  if s.toList.getLast? = some '.' then s else s ++ "."

/-- `strings.Join(l, sep)`. -/
def joinWith (sep : String) : List String → String
  | [] => ""
  | [x] => x
  | x :: y :: rest => x ++ sep ++ joinWith sep (y :: rest)

/-- Boolean list-prefix test used by the multi-character splitter. -/
def isPrefixList : List Char → List Char → Bool
  | [], _ => true
  | _ :: _, [] => false
  | a :: as, b :: bs => a = b && isPrefixList as bs

/-- Scanner for `strings.Split` with a multi-character separator: splits at
every leftmost, non-overlapping occurrence of `sep`.  `fuel` bounds the
recursion (one unit per consumed character); callers pass `length + 1`. -/
def splitSepAux (sep : List Char) : Nat → List Char → List Char → List (List Char)
  | 0, s, acc => [acc.reverse ++ s]
  | Nat.succ fuel, s, acc =>
    match s with
    | [] => [acc.reverse]
    | c :: rest =>
      if isPrefixList sep (c :: rest) then
        acc.reverse :: splitSepAux sep fuel (List.drop sep.length (c :: rest)) []
      else
        splitSepAux sep fuel rest (c :: acc)

/-- `strings.Split(s, sep)` for a nonempty separator. -/
def goSplit (sep : String) (s : String) : List String :=
  (splitSepAux sep.toList (s.toList.length + 1) s.toList []).map String.mk

/-- `strings.SplitN(s, sep, n)` for `n > 0`: at most `n` pieces, the last
piece being the unsplit remainder. -/
def goSplitN (sep : String) (n : Nat) (s : String) : List String :=
  let ps := goSplit sep s
  if ps.length ≤ n then ps else ps.take (n - 1) ++ [joinWith sep (ps.drop (n - 1))]

/-- Whitespace per `unicode.IsSpace` restricted to the ASCII range (the only
characters relevant to the pipe-delimited Cymru payloads). -/
def isSpaceGo (c : Char) : Bool :=
  c = ' ' || c = '\t' || c = '\n' || c = '\r' || c = '\x0b' || c = '\x0c'

/-- `strings.TrimSpace`. -/
def goTrimSpace (s : String) : String :=
  String.mk (((s.toList.dropWhile isSpaceGo).reverse.dropWhile isSpaceGo).reverse)

/-- `s[:n]` on a Go string (character-level model of byte slicing; all
truncated values here are ASCII). -/
def goTake (n : Nat) (s : String) : String :=
  String.mk (s.toList.take n)

/-- `strings.Contains(s, ":")`. -/
def containsColon (s : String) : Bool :=
  s.toList.any (fun c => c = ':')

/-! ### DNS wire model -/

/-- The DNS question `Trace`/`Exists`/... hand to `client.Exchange`:
the server address (`host:port`), the query name, the query type and the
recursion-desired flag. -/
structure Query where
  server : String
  name : String
  qtype : Nat
  rd : Bool
deriving DecidableEq

/-- The resource records the resolver inspects.  `other` stands for any
record type the code never matches on (SOA, RRSIG, ...). -/
inductive RR where
  | a (name : String) (addr : String)
  | aaaa (name : String) (addr : String)
  | ns (target : String)
  | cname (target : String)
  | mx (pref : Nat) (target : String)
  | txt (strs : List String)
  | other
deriving DecidableEq

/-- A parsed DNS response: response code, answer section, authority
section (`resp.Ns` in miekg), additional section (`resp.Extra`). -/
structure Msg where
  rcode : Nat
  answer : List RR
  ns : List RR
  extra : List RR
deriving DecidableEq

/-- One hop of the delegation trace (`TraceStep` in resolver.go). -/
structure TraceStep where
  zone : String
  server : String
deriving DecidableEq

/-- `Records` in resolver.go. -/
structure Records where
  A : List String
  AAAA : List String
  MX : List String
  TXT : List String
  NS : List String
  CNAME : List String
deriving DecidableEq

/-- `ASNInfo` in resolver.go. -/
structure ASNInfo where
  asn : String
  org : String
deriving DecidableEq

/-- DNS type codes used by the resolver. -/
def typeA : Nat := 1
def typeNS : Nat := 2
def typeCNAME : Nat := 5
def typeMX : Nat := 15
def typeTXT : Nat := 16
def typeAAAA : Nat := 28

/-- `dns.RcodeNameError` (NXDOMAIN). -/
def rcodeNameError : Nat := 3

/-- The kind of network oracle every resolver method consults:
`none` is a transport error. -/
abbrev Exchange := Query → Option Msg

/-- The `net.LookupHost` oracle used by `Trace`'s glue fallback. -/
abbrev HostLookup := String → List String

/-! ### Existence check (resolver.go `Exists`, lines 44-55) -/

/-- The single question `Exists` sends: a recursion-desired NS query to the
fixed recursive resolver. -/
def existsQuery (domain : String) : Query :=
  Query.mk "8.8.8.8:53" (dnsFqdn domain) typeNS true

/-- `Resolver.Exists` (named `ExistsB` because `Exists` is taken in Lean):
transport error ⇒ true; otherwise true iff the response code is not
name-error. -/
def ExistsB (exchange : Exchange) (domain : String) : Bool :=
  match exchange (existsQuery domain) with
  | none => true
  | some resp => if resp.rcode = rcodeNameError then false else true

/-! ### Delegation tracer (resolver.go `Trace`, lines 101-196) -/

/-- The three hardcoded root server addresses. -/
def rootServers : List String := ["198.41.0.4", "199.9.14.201", "192.33.4.12"]

/-- `getRootServerName`: the static IP→name table, falling back to the IP
literal itself. -/
def getRootServerName (ip : String) : String :=
  if ip = "198.41.0.4" then "a.root-servers.net"
  else if ip = "199.9.14.201" then "b.root-servers.net"
  else if ip = "192.33.4.12" then "c.root-servers.net"
  else ip

/-- The zone sequence tail built by `Trace`'s descending loop over
`parts[i:]`: suffix zones from shortest (TLD) to longest, each with a
trailing dot. -/
def suffixZones : List String → List String
  | [] => []
  | p :: rest => suffixZones rest ++ [joinWith "." (p :: rest) ++ "."]

/-- The number of labels `Trace` derives from a domain (the length of
`strings.Split(strings.TrimSuffix(dns.Fqdn(domain), "."), ".")`). -/
def numLabels (domain : String) : Nat :=
  (goSplitDot (goTrimSuffixDot (dnsFqdn domain))).length

/-- Lines 140-146: the section scanned for NS records — the answer section
whenever it is nonempty, else the authority section whenever it is
nonempty, else nothing. -/
def selectNSRecords (answer auth : List RR) : List RR :=
  if answer.length > 0 then answer
  else if auth.length > 0 then auth
  else []

/-- Lines 155-160: the first A record of the additional section whose owner
name equals the NS target, if any. -/
def glueAddr (extra : List RR) (nsTarget : String) : Option String :=
  match extra with
  | [] => none
  | RR.a name addr :: rest =>
    if name = nsTarget then some addr else glueAddr rest nsTarget
  | _ :: rest => glueAddr rest nsTarget

/-- Lines 154-167: the address obtained for one NS record — the glue
address when one is found (and nonempty, as every stringified `dns.A` is),
else the first `net.LookupHost` result for the trimmed NS name, else `""`. -/
def resolveNSAddr (extra : List RR) (lookup : HostLookup) (nsTarget : String) : String :=
  let g := (glueAddr extra nsTarget).getD ""
  if g = "" then
    match lookup (goTrimSuffixDot nsTarget) with
    | [] => ""
    | ip :: _ => ip
  else g

/-- Lines 151-172: the `for _, rr := range nsRecords` loop.  `serverName`
is the accumulator carried across iterations; the loop stops at the first
NS record that yields an address.  Returns `(serverName, nextServer)`. -/
def pickServerAux (extra : List RR) (lookup : HostLookup) (serverName : String) :
    List RR → String × String
  | [] => (serverName, "")
  | RR.ns target :: rest =>
    let sn := goTrimSuffixDot target
    let nx := resolveNSAddr extra lookup target
    if nx = "" then pickServerAux extra lookup sn rest else (sn, nx)
  | _ :: rest => pickServerAux extra lookup serverName rest

/-- The NS-selection loop started with both locals empty. -/
def pickServer (nsRecords extra : List RR) (lookup : HostLookup) : String × String :=
  pickServerAux extra lookup "" nsRecords

/-- Lines 140-180 applied to a successfully received response: the
optionally emitted step and the updated `currentServer`. -/
def stepOfResp (lookup : HostLookup) (currentServer zone : String) (resp : Msg) :
    Option TraceStep × String :=
  let nsRecords := selectNSRecords resp.answer resp.ns
  let p := pickServer nsRecords resp.extra lookup
  let step := if p.1 = "" then none else some (TraceStep.mk zone p.1)
  (step, if p.2 = "" then currentServer else p.2)

/-- One non-root iteration of `Trace`'s zone loop (lines 130-180):
transport error ⇒ no step, `currentServer` unchanged. -/
def traceStep (exchange : Exchange) (lookup : HostLookup)
    (currentServer zone : String) : Option TraceStep × String :=
  match exchange (Query.mk (currentServer ++ ":53") zone typeNS false) with
  | none => (none, currentServer)
  | some resp => stepOfResp lookup currentServer zone resp

/-- The zone loop over the non-root zones, carrying `currentServer`. -/
def traceLoop (exchange : Exchange) (lookup : HostLookup) :
    List String → String → List TraceStep
  | [], _ => []
  | zone :: rest, cur =>
    let p := traceStep exchange lookup cur zone
    match p.1 with
    | none => traceLoop exchange lookup rest p.2
    | some st => st :: traceLoop exchange lookup rest p.2

/-- `Resolver.Trace`: the root step is emitted without a query, then the
loop walks the suffix zones.  (The Go function's error return is always
`nil`.) -/
def Trace (exchange : Exchange) (lookup : HostLookup) (domain : String) :
    List TraceStep :=
  let fq := dnsFqdn domain
  let parts := goSplitDot (goTrimSuffixDot fq)
  TraceStep.mk "." (getRootServerName (rootServers.headD ""))
    :: traceLoop exchange lookup (suffixZones parts) (rootServers.headD "")

/-! ### ASN attribution (resolver.go `LookupASN`/`lookupASName`, lines 205-282) -/

/-- One hex nibble as printed by `fmt.Sprintf("%x", n)` for `n ≤ 15`. -/
def hexDigit : Nat → String
  | 0 => "0" | 1 => "1" | 2 => "2" | 3 => "3" | 4 => "4" | 5 => "5"
  | 6 => "6" | 7 => "7" | 8 => "8" | 9 => "9" | 10 => "a" | 11 => "b"
  | 12 => "c" | 13 => "d" | 14 => "e" | 15 => "f" | _ => ""

/-- Lines 219-222 for one byte: low nibble (`b&0x0f`) then high nibble
(`b>>4`). -/
def byteNibbles (b : Nat) : List String :=
  [hexDigit (b % 16), hexDigit (b / 16)]

/-- Lines 218-222: the nibble sequence for a 16-byte address, from the last
byte backwards. -/
def ipv6Nibbles (full : List Nat) : List String :=
  full.reverse.flatMap byteNibbles

/-- Lines 206-232: the Cymru origin query name, or `none` when the address
does not parse.  `parse16` is the `net.ParseIP(...).To16()` oracle (16
bytes on success). -/
def buildOriginQuery (parse16 : String → Option (List Nat)) (ip : String) :
    Option String :=
  if containsColon ip then
    match parse16 ip with
    | none => none
    | some full =>
      some (joinWith "." (ipv6Nibbles full) ++ ".origin6.asn.cymru.com.")
  else
    match goSplitDot ip with
    | [a, b, c, d] =>
      some (d ++ "." ++ c ++ "." ++ b ++ "." ++ a ++ ".origin.asn.cymru.com.")
    | _ => none

/-- The TXT question for a Cymru origin query name. -/
def originQuery (qname : String) : Query :=
  Query.mk "8.8.8.8:53" qname typeTXT true

/-- The TXT question of the AS-name lookup (`"AS%s.asn.cymru.com."`). -/
def nameQuery (asn : String) : Query :=
  Query.mk "8.8.8.8:53" ("AS" ++ asn ++ ".asn.cymru.com.") typeTXT true

/-- `lookupASName` (lines 258-282): always returns an `ASNInfo`; the
organization is field index 4 of the pipe-split first TXT string when the
query succeeds with a usable answer, else empty. -/
def lookupASName (exchange : Exchange) (asn : String) : ASNInfo :=
  match exchange (nameQuery asn) with
  | none => ASNInfo.mk ("AS" ++ asn) ""
  | some resp =>
    match resp.answer with
    | [] => ASNInfo.mk ("AS" ++ asn) ""
    | rr :: _ =>
      match rr with
      | RR.txt strs =>
        match strs with
        | [] => ASNInfo.mk ("AS" ++ asn) ""
        | s :: _ =>
          let nameFields := goSplitN " | " 5 s
          let org := if 5 ≤ nameFields.length
                     then goTrimSpace (nameFields.getD 4 "") else ""
          ASNInfo.mk ("AS" ++ asn) org
      | _ => ASNInfo.mk ("AS" ++ asn) ""

/-- `LookupASN` (lines 205-256). -/
def LookupASN (exchange : Exchange) (parse16 : String → Option (List Nat))
    (ip : String) : Option ASNInfo :=
  match buildOriginQuery parse16 ip with
  | none => none
  | some qname =>
    match exchange (originQuery qname) with
    | none => none
    | some resp =>
      match resp.answer with
      | [] => none
      | rr :: _ =>
        match rr with
        | RR.txt strs =>
          match strs with
          | [] => none
          | s :: _ =>
            let fields := goSplitN " | " 5 s
            if fields.length < 1 then none
            else some (lookupASName exchange (goTrimSpace (fields.headD "")))
        | _ => none

/-! ### Record aggregation (resolver.go lines 294-381) -/

/-- The shared extractor of `queryRecords`' `switch` (lines 327-336): it
accepts A, AAAA and CNAME answers regardless of the query type that was
asked. -/
def extractRecord : RR → Option String
  | RR.a _ addr => some addr
  | RR.aaaa _ addr => some addr
  | RR.cname target => some (goTrimSuffixDot target)
  | _ => none

/-- `queryRecords` (lines 316-338). -/
def queryRecords (exchange : Exchange) (nm : String) (qtype : Nat) : List String :=
  match exchange (Query.mk "8.8.8.8:53" nm qtype true) with
  | none => []
  | some resp => resp.answer.filterMap extractRecord

/-- `queryMX` (lines 340-357). -/
def queryMX (exchange : Exchange) (nm : String) : List String :=
  match exchange (Query.mk "8.8.8.8:53" nm typeMX true) with
  | none => []
  | some resp =>
    resp.answer.filterMap fun rr =>
      match rr with
      | RR.mx pref target => some (toString pref ++ " " ++ goTrimSuffixDot target)
      | _ => none

/-- Lines 372-376: concatenated TXT value, truncated past 60 characters to
its first 57 characters plus `"..."`. -/
def truncTXT (v : String) : String :=
  if v.length > 60 then goTake 57 v ++ "..." else v

/-- The per-answer TXT extractor of `queryTXT`'s loop. -/
def txtExtract : RR → Option String
  | RR.txt strs => some (truncTXT (String.join strs))
  | _ => none

/-- `queryTXT` (lines 359-381). -/
def queryTXT (exchange : Exchange) (nm : String) : List String :=
  match exchange (Query.mk "8.8.8.8:53" nm typeTXT true) with
  | none => []
  | some resp => resp.answer.filterMap txtExtract

/-- `GetRecords` (lines 294-314); the `NS` field of `Records` is never
populated by it. -/
def GetRecords (exchange : Exchange) (domain : String) : Records :=
  let fq := dnsFqdn domain
  Records.mk (queryRecords exchange fq typeA) (queryRecords exchange fq typeAAAA)
    (queryMX exchange fq) (queryTXT exchange fq) []
    (queryRecords exchange fq typeCNAME)

/-! ### Auxiliary predicates used by the statements -/

/-- Does a record list contain at least one NS record? -/
def hasNS (l : List RR) : Bool :=
  l.any fun rr => match rr with | RR.ns _ => true | _ => false

/-- The NS targets of a record list, in order. -/
def nsTargets : List RR → List String
  | [] => []
  | RR.ns t :: rest => t :: nsTargets rest
  | _ :: rest => nsTargets rest

/-- Is a record a TXT record with a nonempty string list (the shape both
Cymru parsers require)? -/
def isTXTnonempty : RR → Bool
  | RR.txt (_ :: _) => true
  | _ => false

/-- Is a record a TXT record at all (castable to `*dns.TXT`)? -/
def isTXT : RR → Bool
  | RR.txt _ => true
  | _ => false

/-- Well-formedness of an ASN string as the specification states it:
`"AS"` immediately followed by (at least one) decimal digit and nothing
else. -/
def wellFormedASN (s : String) : Bool :=
  match s.toList with
  | 'A' :: 'S' :: c :: cs => (c :: cs).all Char.isDigit
  | _ => false

/-! ### Concrete environments used to exercise the theorems -/

/-- A host lookup that always fails. -/
def lkEmpty : HostLookup := fun _ => []

/-- A host lookup that always answers `1.1.1.1`. -/
def lkOne : HostLookup := fun _ => ["1.1.1.1"]

/-- A host lookup that only resolves `ns2.example`. -/
def lkSecondNS : HostLookup := fun s => if s = "ns2.example" then ["2.2.2.2"] else []

/-- An additional section with one unrelated record and one glue A record
for `ns1.example.`. -/
def extraGlue : List RR := [RR.cname "x.", RR.a "ns1.example." "9.9.9.9"]

/-- A response whose answer section holds two NS records and no glue. -/
def msgTwoNS : Msg := Msg.mk 0 [RR.ns "ns1.example.", RR.ns "ns2.example."] [] []

/-- An exchange that answers NS queries for `com.` with `msgTwoNS`. -/
def exTwoNS : Exchange := fun q => if q.name = "com." then some msgTwoNS else none

/-- A response with a non-NS answer section and an NS-bearing authority
section. -/
def msgMixed : Msg := Msg.mk 0 [RR.a "www.example." "1.2.3.4"] [RR.ns "ns1.example."] []

/-- An NXDOMAIN response. -/
def msgNX : Msg := Msg.mk 3 [] [] []

/-- An exchange that always answers NXDOMAIN. -/
def exNX : Exchange := fun _ => some msgNX

/-- A referral for `com.` with glue in the additional section. -/
def msgDeleg : Msg :=
  Msg.mk 0 [RR.ns "a.gtld-servers.net."] [] [RR.a "a.gtld-servers.net." "192.5.6.30"]

/-- An exchange that answers only the root server's `com.` NS query. -/
def exDeleg : Exchange := fun q =>
  if q = Query.mk "198.41.0.4:53" "com." typeNS false then some msgDeleg else none

/-- A `parse16` oracle that parses nothing (only IPv4 paths exercised). -/
def p16none : String → Option (List Nat) := fun _ => none

/-- A `parse16` oracle that parses `::1`. -/
def p16v6 : String → Option (List Nat) := fun s =>
  if s = "::1" then some [0, 0, 0, 0, 0, 0, 0, 0, 0, 0, 0, 0, 0, 0, 0, 1] else none

/-- An exchange answering the origin query for 1.2.3.4 with a TXT record
that has an empty string list. -/
def exOriginEmptyTXT : Exchange := fun q =>
  if q.name = "4.3.2.1.origin.asn.cymru.com." then some (Msg.mk 0 [RR.txt []] [] []) else none

/-- A well-formed Cymru origin payload for AS13335. -/
def s13335 : String := "13335 | 104.18.0.0/15 | US | arin | 2014"

/-- An exchange answering the origin query for 1.2.3.4 with the AS13335
payload and failing every other query (in particular the AS-name query). -/
def exOriginGood : Exchange := fun q =>
  if q.name = "4.3.2.1.origin.asn.cymru.com." then some (Msg.mk 0 [RR.txt [s13335]] [] []) else none

/-- An exchange answering the origin query for 1.2.3.4 with a payload whose
first field is not numeric. -/
def exOriginBad : Exchange := fun q =>
  if q.name = "4.3.2.1.origin.asn.cymru.com." then some (Msg.mk 0 [RR.txt ["abc | x"]] [] []) else none

/-- A 61-character TXT value. -/
def longV : String := String.mk (List.replicate 61 'x')

/-- A response holding one long TXT answer. -/
def msgLong : Msg := Msg.mk 0 [RR.txt [longV]] [] []

/-- An exchange answering every TXT query with `msgLong`. -/
def exTXTLong : Exchange := fun q => if q.qtype = typeTXT then some msgLong else none

/-- A response to an A query whose answer mixes an A record and a CNAME
record. -/
def msgA10 : Msg := Msg.mk 0 [RR.a "e.example." "1.2.3.4", RR.cname "alias.example."] [] []

/-- An exchange answering every A query with `msgA10`. -/
def exA10 : Exchange := fun q => if q.qtype = typeA then some msgA10 else none

/-! ### Shared lemmas -/

theorem splitSepAux_ne_nil (sep : List Char) :
    ∀ (fuel : Nat) (s acc : List Char), splitSepAux sep fuel s acc ≠ [] := by
  intro fuel
  induction fuel with
  | zero => intro s acc; simp [splitSepAux]
  | succ fuel ih =>
    intro s acc
    cases s with
    | nil => simp [splitSepAux]
    | cons c rest =>
      simp only [splitSepAux]
      by_cases h : isPrefixList sep (c :: rest) = true
      · simp [h]
      · simp [h]; exact ih rest (c :: acc)

theorem goSplit_ne_nil (sep s : String) : goSplit sep s ≠ [] := by
  simp only [goSplit, ne_eq, List.map_eq_nil_iff]
  exact splitSepAux_ne_nil _ _ _ _

theorem goSplitN_ne_nil (sep : String) (n : Nat) (s : String) : goSplitN sep n s ≠ [] := by
  simp only [goSplitN]
  by_cases h : (goSplit sep s).length ≤ n
  · simpa [h] using goSplit_ne_nil sep s
  · simp [h]

theorem goSplitN_length_pos (sep : String) (n : Nat) (s : String) :
    0 < (goSplitN sep n s).length :=
  List.length_pos.mpr (goSplitN_ne_nil sep n s)

theorem pickServerAux_fst_ne (extra : List RR) (lookup : HostLookup) :
    ∀ (l : List RR) (acc : String), (pickServerAux extra lookup acc l).1 ≠ "" →
      acc ≠ "" ∨ hasNS l = true := by
  intro l
  induction l with
  | nil => intro acc h; exact Or.inl h
  | cons rr rest ih =>
    intro acc h
    cases rr
    case ns target =>
      right
      simp [hasNS]
    all_goals {
      rcases ih acc (by simpa [pickServerAux] using h) with h2 | h2
      · exact Or.inl h2
      · right
        simp only [hasNS, List.any_cons] at h2 ⊢
        simp [h2]
    }

theorem suffixZones_length (l : List String) : (suffixZones l).length = l.length := by
  induction l with
  | nil => rfl
  | cons p rest ih => simp [suffixZones, ih]

theorem traceLoop_length (exchange : Exchange) (lookup : HostLookup) :
    ∀ (zones : List String) (cur : String),
      (traceLoop exchange lookup zones cur).length ≤ zones.length := by
  intro zones
  induction zones with
  | nil => intro cur; simp [traceLoop]
  | cons zone rest ih =>
    intro cur
    simp only [traceLoop]
    cases h : (traceStep exchange lookup cur zone).1 with
    | none =>
      simp only [h]
      exact Nat.le_succ_of_le (ih _)
    | some st =>
      simp only [h, List.length_cons]
      exact Nat.succ_le_succ (ih _)

theorem traceStep_emits (exchange : Exchange) (lookup : HostLookup)
    (cur zone : String) (st : TraceStep)
    (h : (traceStep exchange lookup cur zone).1 = some st) :
    ∃ resp, exchange (Query.mk (cur ++ ":53") zone typeNS false) = some resp ∧
      st.zone = zone ∧ hasNS (selectNSRecords resp.answer resp.ns) = true := by
  revert h
  unfold traceStep
  cases hx : exchange (Query.mk (cur ++ ":53") zone typeNS false) with
  | none => intro h; simp at h
  | some resp =>
    intro h
    refine ⟨resp, rfl, ?_⟩
    revert h
    unfold stepOfResp
    by_cases hp : (pickServer (selectNSRecords resp.answer resp.ns) resp.extra lookup).1 = ""
    · intro h; simp [hp] at h
    · intro h
      simp only [hp, if_false] at h
      rcases pickServerAux_fst_ne resp.extra lookup _ "" hp with h2 | h2
      · exact absurd rfl h2
      · cases h
        exact ⟨rfl, h2⟩

theorem traceLoop_mem (exchange : Exchange) (lookup : HostLookup) :
    ∀ (zones : List String) (cur : String) (st : TraceStep),
      st ∈ traceLoop exchange lookup zones cur →
      ∃ srv resp, exchange (Query.mk (srv ++ ":53") st.zone typeNS false) = some resp ∧
        hasNS (selectNSRecords resp.answer resp.ns) = true := by
  intro zones
  induction zones with
  | nil => intro cur st h; simp [traceLoop] at h
  | cons zone rest ih =>
    intro cur st h
    simp only [traceLoop] at h
    cases hs : (traceStep exchange lookup cur zone).1 with
    | none =>
      rw [hs] at h
      exact ih _ st h
    | some st' =>
      rw [hs] at h
      rcases List.mem_cons.mp h with h1 | h1
      · subst h1
        rcases traceStep_emits exchange lookup cur zone st hs with ⟨resp, hex, hz, hns⟩
        exact ⟨cur, resp, by rw [hz]; exact hex, hns⟩
      · exact ih _ st h1

theorem getLastD_ne_nil_irrel {α : Type} (l : List α) (d d' : α) (h : l ≠ []) :
    l.getLastD d = l.getLastD d' := by
  cases l with
  | nil => exact absurd rfl h
  | cons x xs =>
    rw [List.getLastD_cons, List.getLastD_cons]

theorem foldl_overwrite (f : String → String) :
    ∀ (ts : List String) (acc : String), ts ≠ [] →
      ts.foldl (fun _ t => f t) acc = f (ts.getLastD "") := by
  intro ts
  induction ts with
  | nil => intro acc h; exact absurd rfl h
  | cons t rest ih =>
    intro acc _
    rw [List.foldl_cons]
    by_cases hr : rest = []
    · subst hr; simp [List.getLastD_cons]
    · rw [ih (f t) hr, List.getLastD_cons]
      exact congrArg f (getLastD_ne_nil_irrel rest "" t hr)

theorem pickServerAux_all_fail (extra : List RR) (lookup : HostLookup) :
    ∀ (l : List RR) (acc : String),
      (∀ t ∈ nsTargets l, resolveNSAddr extra lookup t = "") →
      pickServerAux extra lookup acc l =
        ((nsTargets l).foldl (fun _ t => goTrimSuffixDot t) acc, "") := by
  intro l
  induction l with
  | nil => intro acc _; rfl
  | cons rr rest ih =>
    intro acc hall
    cases rr
    case ns target =>
      have hfail : resolveNSAddr extra lookup target = "" :=
        hall target (by simp [nsTargets])
      have hrest : ∀ t ∈ nsTargets rest, resolveNSAddr extra lookup t = "" := by
        intro t ht
        exact hall t (by simp [nsTargets, ht])
      simp only [pickServerAux, hfail, if_pos rfl]
      rw [ih (goTrimSuffixDot target) hrest]
      simp [nsTargets]
    all_goals {
      have hrest : ∀ t ∈ nsTargets rest, resolveNSAddr extra lookup t = "" := by
        intro t ht
        simp only [nsTargets] at hall
        exact hall t ht
      simp only [pickServerAux, nsTargets]
      exact ih acc hrest
    }

theorem pickServerAux_first_resolvable (extra : List RR) (lookup : HostLookup) :
    ∀ (l : List RR) (acc : String) (ts1 : List String) (t : String) (ts2 : List String),
      nsTargets l = ts1 ++ t :: ts2 →
      (∀ u ∈ ts1, resolveNSAddr extra lookup u = "") →
      resolveNSAddr extra lookup t ≠ "" →
      pickServerAux extra lookup acc l =
        (goTrimSuffixDot t, resolveNSAddr extra lookup t) := by
  intro l
  induction l with
  | nil =>
    intro acc ts1 t ts2 h _ _
    rcases ts1 with _ | ⟨u, ts1x⟩ <;> simp [nsTargets] at h
  | cons rr rest ih =>
    intro acc ts1 t ts2 h hfail hok
    cases rr
    case ns target =>
      simp only [nsTargets] at h
      cases ts1 with
      | nil =>
        simp only [List.nil_append] at h
        injection h with h1 h2
        subst h1
        simp only [pickServerAux]
        rw [if_neg hok]
      | cons u ts1x =>
        simp only [List.cons_append] at h
        injection h with h1 h2
        have hfl : resolveNSAddr extra lookup target = "" := by
          rw [h1]
          exact hfail u (by simp)
        simp only [pickServerAux, hfl, if_pos rfl]
        exact ih (goTrimSuffixDot target) ts1x t ts2 h2
          (fun u2 hu2 => hfail u2 (by simp [hu2])) hok
    all_goals {
      simp only [nsTargets] at h
      simp only [pickServerAux]
      exact ih acc ts1 t ts2 h hfail hok
    }

theorem lookupASName_asn (exchange : Exchange) (asn : String) :
    (lookupASName exchange asn).asn = "AS" ++ asn := by
  unfold lookupASName
  repeat' split <;> try rfl

theorem lookupASN_success_eq (exchange : Exchange)
    (parse16 : String → Option (List Nat)) (ip qname : String) (resp : Msg)
    (s : String) (ss : List String) (rest : List RR)
    (hq : buildOriginQuery parse16 ip = some qname)
    (he : exchange (originQuery qname) = some resp)
    (ha : resp.answer = RR.txt (s :: ss) :: rest) :
    LookupASN exchange parse16 ip
      = some (lookupASName exchange (goTrimSpace ((goSplitN " | " 5 s).headD ""))) := by
  have hlen := Nat.not_lt.mpr (goSplitN_length_pos " | " 5 s)
  simp [LookupASN, hq, he, ha, hlen]

theorem toList_AS_append (f : String) : ("AS" ++ f).toList = 'A' :: 'S' :: f.toList := by
  cases f
  rfl

theorem wellFormedASN_AS_append (f : String) (h1 : f.toList ≠ [])
    (h2 : f.toList.all Char.isDigit = true) : wellFormedASN ("AS" ++ f) = true := by
  unfold wellFormedASN
  rw [toList_AS_append]
  cases hf : f.toList with
  | nil => exact absurd hf h1
  | cons c cs =>
    rw [hf] at h2
    simpa using h2

/-! ### Claim theorems -/

/-- C1: at every hop of the trace, the address attempted for a discovered
NS record prefers glue: when the additional section contains an A record
owned by the NS target (necessarily with a nonempty printed address), the
resulting next-hop address is exactly that glue address, independently of
the host-resolution oracle; only when no glue matches does the tracer fall
back to host resolution of the trimmed NS name and take its first result. -/
theorem glue_preferred_over_host_resolution (extra : List RR)
    (lookup lookup2 : HostLookup) (target g : String) :
    (glueAddr extra target = some g → g ≠ "" →
      resolveNSAddr extra lookup target = g)
    ∧ (glueAddr extra target = some g → g ≠ "" →
      resolveNSAddr extra lookup target = resolveNSAddr extra lookup2 target)
    ∧ (glueAddr extra target = none →
      resolveNSAddr extra lookup target = (lookup (goTrimSuffixDot target)).headD "") := by
  have key : ∀ lk : HostLookup, glueAddr extra target = some g → g ≠ "" →
      resolveNSAddr extra lk target = g := by
    intro lk hg hne
    unfold resolveNSAddr
    rw [hg]
    simp [hne]
  refine ⟨key lookup, fun hg hne => (key lookup hg hne).trans (key lookup2 hg hne).symm, ?_⟩
  intro hg
  unfold resolveNSAddr
  rw [hg]
  simp only [Option.getD_none, if_pos rfl]
  cases lookup (goTrimSuffixDot target) <;> rfl

/-- C1 witness: with glue for `ns1.example.` present the glue address wins,
and without glue the first host-resolution result is used. -/
theorem glue_preferred_over_host_resolution_witness :
    resolveNSAddr extraGlue lkOne "ns1.example." = "9.9.9.9"
    ∧ resolveNSAddr [] lkOne "ns1.example." = "1.1.1.1" :=
  ⟨(glue_preferred_over_host_resolution extraGlue lkOne lkOne "ns1.example." "9.9.9.9").1
      (by decide) (by decide),
   ((glue_preferred_over_host_resolution [] lkOne lkOne "ns1.example." "9.9.9.9").2.2
      (by decide)).trans (by decide)⟩

/-- C2 counterexample: with two NS records in the chosen section, no glue,
and host resolution succeeding only for the second, the emitted step's
server is the second NS record's trimmed hostname, not the first's. -/
theorem trace_first_ns_counterexample :
    Trace exTwoNS lkSecondNS "com"
      = [TraceStep.mk "." "a.root-servers.net", TraceStep.mk "com." "ns2.example"]
    ∧ nsTargets (selectNSRecords msgTwoNS.answer msgTwoNS.ns)
      = ["ns1.example.", "ns2.example."]
    ∧ goTrimSuffixDot "ns1.example." ≠ "ns2.example" := by
  refine ⟨by decide, by decide, by decide⟩

/-- C2 amended: the NS record used is the first NS record of the chosen
section for which an address (glue or fallback) is obtained — the loop
advances past every NS record whose address resolution fails — with its
hostname stripped of the trailing dot; when no NS record yields an
address, the emitted server is the last NS record's trimmed hostname; when
the section holds no NS record at all, nothing is emitted. -/
theorem pickServer_first_resolvable_else_last (extra : List RR)
    (lookup : HostLookup) (l : List RR) :
    (∀ ts1 t ts2, nsTargets l = ts1 ++ t :: ts2 →
      (∀ u ∈ ts1, resolveNSAddr extra lookup u = "") →
      resolveNSAddr extra lookup t ≠ "" →
      pickServer l extra lookup = (goTrimSuffixDot t, resolveNSAddr extra lookup t))
    ∧ ((∀ t ∈ nsTargets l, resolveNSAddr extra lookup t = "") → nsTargets l ≠ [] →
      pickServer l extra lookup = (goTrimSuffixDot ((nsTargets l).getLastD ""), ""))
    ∧ (nsTargets l = [] → pickServer l extra lookup = ("", "")) := by
  refine ⟨?_, ?_, ?_⟩
  · intro ts1 t ts2 h hfail hok
    exact pickServerAux_first_resolvable extra lookup l "" ts1 t ts2 h hfail hok
  · intro hall hne
    unfold pickServer
    rw [pickServerAux_all_fail extra lookup l "" hall]
    rw [foldl_overwrite goTrimSuffixDot (nsTargets l) "" hne]
  · intro hnil
    unfold pickServer
    rw [pickServerAux_all_fail extra lookup l "" (by rw [hnil]; simp)]
    rw [hnil]
    rfl

/-- C2 amended witness: the first NS record wins when it resolves through
glue; with a failing first NS record the loop advances to the second,
resolvable one; when no NS record resolves, the last NS record's trimmed
name is kept. -/
theorem pickServer_first_resolvable_else_last_witness :
    pickServer [RR.ns "ns1.example."] extraGlue lkOne = ("ns1.example", "9.9.9.9")
    ∧ pickServer [RR.ns "ns1.example.", RR.ns "ns2.example."] [] lkSecondNS
      = ("ns2.example", "2.2.2.2")
    ∧ pickServer [RR.ns "ns1.example.", RR.ns "ns2.example."] [] lkEmpty
      = ("ns2.example", "") :=
  ⟨((pickServer_first_resolvable_else_last extraGlue lkOne [RR.ns "ns1.example."]).1
      [] "ns1.example." [] (by decide) (by decide) (by decide)).trans (by decide),
   ((pickServer_first_resolvable_else_last [] lkSecondNS
      [RR.ns "ns1.example.", RR.ns "ns2.example."]).1
      ["ns1.example."] "ns2.example." [] (by decide) (by decide) (by decide)).trans (by decide),
   ((pickServer_first_resolvable_else_last [] lkEmpty
      [RR.ns "ns1.example.", RR.ns "ns2.example."]).2.1
      (by decide) (by decide)).trans (by decide)⟩

/-- C3 counterexample: an answer section that is nonempty but NS-free
shadows an NS-bearing authority section, so no NS record is found and no
step is emitted. -/
theorem selectNS_answer_shadow_counterexample :
    selectNSRecords msgMixed.answer msgMixed.ns = msgMixed.answer
    ∧ hasNS msgMixed.answer = false
    ∧ hasNS msgMixed.ns = true
    ∧ selectNSRecords msgMixed.answer msgMixed.ns ≠ msgMixed.ns
    ∧ (stepOfResp lkEmpty "198.41.0.4" "example.com." msgMixed).1 = none := by
  refine ⟨by decide, by decide, by decide, by decide, by decide⟩

/-- C3 amended: the section scanned for NS records is the answer section
whenever the answer section is nonempty (whether or not it contains NS
records — the authority section is then never consulted), and the
authority section only when the answer section is empty. -/
theorem selectNS_by_section_nonemptiness (answer auth auth2 extra : List RR)
    (lookup : HostLookup) (cur zone : String) (rc : Nat) :
    (answer ≠ [] → selectNSRecords answer auth = answer)
    ∧ (answer ≠ [] →
      stepOfResp lookup cur zone (Msg.mk rc answer auth extra)
        = stepOfResp lookup cur zone (Msg.mk rc answer auth2 extra))
    ∧ (answer = [] → auth ≠ [] → selectNSRecords answer auth = auth)
    ∧ (answer = [] → auth = [] → selectNSRecords answer auth = []) := by
  refine ⟨?_, ?_, ?_, ?_⟩
  · intro h
    unfold selectNSRecords
    rw [if_pos (by simpa [List.length_pos] using h)]
  · intro h
    have e1 : selectNSRecords answer auth = answer := by
      unfold selectNSRecords
      rw [if_pos (by simpa [List.length_pos] using h)]
    have e2 : selectNSRecords answer auth2 = answer := by
      unfold selectNSRecords
      rw [if_pos (by simpa [List.length_pos] using h)]
    show stepOfResp lookup cur zone (Msg.mk rc answer auth extra)
        = stepOfResp lookup cur zone (Msg.mk rc answer auth2 extra)
    unfold stepOfResp
    simp only [e1, e2]
  · intro h1 h2
    unfold selectNSRecords
    subst h1
    rw [if_neg (by simp), if_pos (by simpa [List.length_pos] using h2)]
  · intro h1 h2
    subst h1; subst h2
    rfl

/-- C3 amended witness: a nonempty NS-free answer section is scanned in
place of the authority section; an empty answer section yields the
authority section. -/
theorem selectNS_by_section_nonemptiness_witness :
    selectNSRecords [RR.a "www.example." "1.2.3.4"] [RR.ns "ns1.example."]
      = [RR.a "www.example." "1.2.3.4"]
    ∧ selectNSRecords [] [RR.ns "ns1.example."] = [RR.ns "ns1.example."] :=
  ⟨(selectNS_by_section_nonemptiness [RR.a "www.example." "1.2.3.4"]
      [RR.ns "ns1.example."] [] [] lkEmpty "" "" 0).1 (by decide),
   (selectNS_by_section_nonemptiness [] [RR.ns "ns1.example."] [] [] lkEmpty "" "" 0).2.2.1
      (by decide) (by decide)⟩

/-- C5: `Exists` returns false exactly when the single recursion-desired
NS query to the fixed resolver succeeds with response code name-error;
every other response code yields true, and a transport error yields true
(fail-open). -/
theorem exists_nxdomain_rule (exchange : Exchange) (domain : String) :
    (ExistsB exchange domain = false ↔
      ∃ m, exchange (existsQuery domain) = some m ∧ m.rcode = rcodeNameError)
    ∧ (exchange (existsQuery domain) = none → ExistsB exchange domain = true)
    ∧ (∀ m, exchange (existsQuery domain) = some m → m.rcode ≠ rcodeNameError →
      ExistsB exchange domain = true) := by
  refine ⟨⟨?_, ?_⟩, ?_, ?_⟩
  · intro hf
    unfold ExistsB at hf
    cases h : exchange (existsQuery domain) with
    | none =>
      rw [h] at hf
      exact absurd hf (by decide)
    | some resp =>
      rw [h] at hf
      change (if resp.rcode = rcodeNameError then false else true) = false at hf
      by_cases hr : resp.rcode = rcodeNameError
      · exact ⟨resp, rfl, hr⟩
      · rw [if_neg hr] at hf
        exact absurd hf (by decide)
  · rintro ⟨m, hm, hmr⟩
    unfold ExistsB
    rw [hm]
    change (if m.rcode = rcodeNameError then false else true) = false
    rw [if_pos hmr]
  · intro hn
    unfold ExistsB
    rw [hn]
  · intro m hm hne
    unfold ExistsB
    rw [hm]
    change (if m.rcode = rcodeNameError then false else true) = true
    rw [if_neg hne]

/-- C5 witness: a name-error response makes `Exists` report false. -/
theorem exists_nxdomain_rule_witness : ExistsB exNX "gone.example" = false :=
  (exists_nxdomain_rule exNX "gone.example").1.mpr ⟨msgNX, rfl, rfl⟩

/-- C4: a trace never has more steps than the number of domain labels plus
one; its first step always has zone `"."` and names the fixed first root
server through the static IP-to-name table (which falls back to the IP
literal itself when unmapped); and every subsequent step belongs to a zone
whose query succeeded and yielded at least one NS record in the chosen
section. -/
theorem trace_shape (exchange : Exchange) (lookup : HostLookup) (domain : String) :
    (Trace exchange lookup domain).length ≤ numLabels domain + 1
    ∧ (Trace exchange lookup domain).head? = some (TraceStep.mk "." "a.root-servers.net")
    ∧ (∀ ip, ip ≠ "198.41.0.4" → ip ≠ "199.9.14.201" → ip ≠ "192.33.4.12" →
        getRootServerName ip = ip)
    ∧ ∀ st ∈ (Trace exchange lookup domain).tail,
        ∃ srv resp, exchange (Query.mk (srv ++ ":53") st.zone typeNS false) = some resp
          ∧ hasNS (selectNSRecords resp.answer resp.ns) = true := by
  refine ⟨?_, ?_, ?_, ?_⟩
  · simp only [Trace, List.length_cons, numLabels]
    have h1 := traceLoop_length exchange lookup
      (suffixZones (goSplitDot (goTrimSuffixDot (dnsFqdn domain)))) (rootServers.headD "")
    have h2 := suffixZones_length (goSplitDot (goTrimSuffixDot (dnsFqdn domain)))
    omega
  · simp only [Trace, List.head?_cons]
    decide
  · intro ip h1 h2 h3
    unfold getRootServerName
    rw [if_neg h1, if_neg h2, if_neg h3]
  · simp only [Trace, List.tail_cons]
    intro st h
    exact traceLoop_mem exchange lookup _ _ st h

/-- C4 witness: a concrete referral environment produces a two-step trace
for `com`, and the non-root step's query holds an NS record. -/
theorem trace_shape_witness :
    (Trace exDeleg lkEmpty "com").length ≤ numLabels "com" + 1
    ∧ (∃ srv resp,
        exDeleg (Query.mk (srv ++ ":53") "com." typeNS false) = some resp
          ∧ hasNS (selectNSRecords resp.answer resp.ns) = true) :=
  ⟨(trace_shape exDeleg lkEmpty "com").1,
   (trace_shape exDeleg lkEmpty "com").2.2.2 (TraceStep.mk "com." "a.gtld-servers.net")
      (by decide)⟩

/-- C6: for an IPv4 literal `a.b.c.d` the origin query name is
`d.c.b.a.origin.asn.cymru.com.` (octets reversed); for a parseable IPv6
literal the query name is exactly 32 dot-joined hex nibbles in reverse
byte-and-nibble order (low nibble of the last byte first) followed by
`.origin6.asn.cymru.com.`. -/
theorem asn_query_encoding (parse16 : String → Option (List Nat)) (ip : String) :
    (containsColon ip = false → ∀ a b c d : String, goSplitDot ip = [a, b, c, d] →
      buildOriginQuery parse16 ip
        = some (d ++ "." ++ c ++ "." ++ b ++ "." ++ a ++ ".origin.asn.cymru.com."))
    ∧ (∀ b0 b1 b2 b3 b4 b5 b6 b7 b8 b9 b10 b11 b12 b13 b14 b15 : Nat,
      containsColon ip = true →
      parse16 ip = some [b0, b1, b2, b3, b4, b5, b6, b7, b8, b9, b10, b11, b12, b13, b14, b15] →
      buildOriginQuery parse16 ip
        = some (joinWith "."
            (ipv6Nibbles [b0, b1, b2, b3, b4, b5, b6, b7, b8, b9, b10, b11, b12, b13, b14, b15])
            ++ ".origin6.asn.cymru.com.")
      ∧ ipv6Nibbles [b0, b1, b2, b3, b4, b5, b6, b7, b8, b9, b10, b11, b12, b13, b14, b15]
        = [hexDigit (b15 % 16), hexDigit (b15 / 16), hexDigit (b14 % 16), hexDigit (b14 / 16),
           hexDigit (b13 % 16), hexDigit (b13 / 16), hexDigit (b12 % 16), hexDigit (b12 / 16),
           hexDigit (b11 % 16), hexDigit (b11 / 16), hexDigit (b10 % 16), hexDigit (b10 / 16),
           hexDigit (b9 % 16), hexDigit (b9 / 16), hexDigit (b8 % 16), hexDigit (b8 / 16),
           hexDigit (b7 % 16), hexDigit (b7 / 16), hexDigit (b6 % 16), hexDigit (b6 / 16),
           hexDigit (b5 % 16), hexDigit (b5 / 16), hexDigit (b4 % 16), hexDigit (b4 / 16),
           hexDigit (b3 % 16), hexDigit (b3 / 16), hexDigit (b2 % 16), hexDigit (b2 / 16),
           hexDigit (b1 % 16), hexDigit (b1 / 16), hexDigit (b0 % 16), hexDigit (b0 / 16)]
      ∧ (ipv6Nibbles
          [b0, b1, b2, b3, b4, b5, b6, b7, b8, b9, b10, b11, b12, b13, b14, b15]).length
        = 32) := by
  constructor
  · intro hc a b c d hs
    unfold buildOriginQuery
    rw [hc]
    simp only [Bool.false_eq_true, if_false, hs]
  · intro b0 b1 b2 b3 b4 b5 b6 b7 b8 b9 b10 b11 b12 b13 b14 b15 hc hp
    refine ⟨?_, rfl, rfl⟩
    unfold buildOriginQuery
    rw [hc]
    simp only [if_true, hp]

/-- C6 witness: the IPv4 literal `1.2.3.4` and the IPv6 literal `::1`
produce the expected Cymru query names. -/
theorem asn_query_encoding_witness :
    buildOriginQuery p16none "1.2.3.4" = some "4.3.2.1.origin.asn.cymru.com."
    ∧ buildOriginQuery p16v6 "::1" = some
        ("1.0.0.0.0.0.0.0.0.0.0.0.0.0.0.0.0.0.0.0.0.0.0.0.0.0.0.0.0.0.0.0"
          ++ ".origin6.asn.cymru.com.") :=
  ⟨((asn_query_encoding p16none "1.2.3.4").1 (by decide) "1" "2" "3" "4"
      (by decide)).trans (by decide),
   (((asn_query_encoding p16v6 "::1").2 0 0 0 0 0 0 0 0 0 0 0 0 0 0 0 1
      (by decide) (by decide)).1).trans (by decide)⟩

/-- C7 counterexample: an origin query that succeeds, has an answer whose
first record casts to TXT, still yields an absent result when that TXT
record's string list is empty — an absence case the claim's "exactly"
omits. -/
theorem lookupASN_empty_txt_counterexample :
    LookupASN exOriginEmptyTXT p16none "1.2.3.4" = none
    ∧ exOriginEmptyTXT (originQuery "4.3.2.1.origin.asn.cymru.com.")
      = some (Msg.mk 0 [RR.txt []] [] [])
    ∧ isTXT (RR.txt []) = true := by
  refine ⟨by decide, by decide, by decide⟩

/-- C7 amended: `LookupASN` is absent exactly when the origin query errors,
returns no answer, or its first answer is not a TXT record with at least
one string (a castable TXT record with an empty string list is also
absent); when the origin answer has a usable first TXT string, the result
is the AS-name lookup of the trimmed first pipe-field, and any failure of
that AS-name query (error, no answer, non-TXT or empty-TXT first answer)
still produces `ASNInfo` with `asn = "AS"+number` and empty organization. -/
theorem lookupASN_absence_characterization (exchange : Exchange)
    (parse16 : String → Option (List Nat)) (ip qname : String)
    (hq : buildOriginQuery parse16 ip = some qname) :
    (exchange (originQuery qname) = none → LookupASN exchange parse16 ip = none)
    ∧ (∀ resp, exchange (originQuery qname) = some resp → resp.answer = [] →
        LookupASN exchange parse16 ip = none)
    ∧ (∀ resp rr rest, exchange (originQuery qname) = some resp →
        resp.answer = rr :: rest → isTXTnonempty rr = false →
        LookupASN exchange parse16 ip = none)
    ∧ (∀ resp s ss rest, exchange (originQuery qname) = some resp →
        resp.answer = RR.txt (s :: ss) :: rest →
        LookupASN exchange parse16 ip
          = some (lookupASName exchange (goTrimSpace ((goSplitN " | " 5 s).headD ""))))
    ∧ (∀ asn, exchange (nameQuery asn) = none →
        lookupASName exchange asn = ASNInfo.mk ("AS" ++ asn) "")
    ∧ (∀ asn resp2, exchange (nameQuery asn) = some resp2 →
        (resp2.answer = []
          ∨ ∃ rr2 rest2, resp2.answer = rr2 :: rest2 ∧ isTXTnonempty rr2 = false) →
        lookupASName exchange asn = ASNInfo.mk ("AS" ++ asn) "") := by
  refine ⟨?_, ?_, ?_, ?_, ?_, ?_⟩
  · intro h
    simp [LookupASN, hq, h]
  · intro resp h ha
    simp [LookupASN, hq, h, ha]
  · intro resp rr rest h ha hn
    cases rr
    case txt strs =>
      cases strs with
      | nil => simp [LookupASN, hq, h, ha]
      | cons s ss => simp [isTXTnonempty] at hn
    all_goals simp [LookupASN, hq, h, ha]
  · intro resp s ss rest h ha
    exact lookupASN_success_eq exchange parse16 ip qname resp s ss rest hq h ha
  · intro asn h
    simp [lookupASName, h]
  · intro asn resp2 h hfail
    rcases hfail with ha | ⟨rr2, rest2, ha, hn⟩
    · simp [lookupASName, h, ha]
    · cases rr2
      case txt strs =>
        cases strs with
        | nil => simp [lookupASName, h, ha]
        | cons s ss => simp [isTXTnonempty] at hn
      all_goals simp [lookupASName, h, ha]

/-- C7 witness: with a well-formed origin answer for 1.2.3.4 and a failing
AS-name query, the resolver still returns `AS13335` with an empty
organization. -/
theorem lookupASN_absence_characterization_witness :
    LookupASN exOriginGood p16none "1.2.3.4" = some (ASNInfo.mk "AS13335" "") := by
  have h := (lookupASN_absence_characterization exOriginGood p16none "1.2.3.4"
      "4.3.2.1.origin.asn.cymru.com." (by decide)).2.2.2.1
      (Msg.mk 0 [RR.txt [s13335]] [] []) s13335 [] [] (by decide) rfl
  rw [h]
  decide

/-- C8 counterexample: the code performs no digit validation on the Cymru
origin payload, so with a non-numeric first field it returns a non-absent
`ASNInfo` whose `asn` is not `"AS"` followed by decimal digits. -/
theorem lookupASN_wellformed_counterexample :
    LookupASN exOriginBad p16none "1.2.3.4" = some (ASNInfo.mk "ASabc" "")
    ∧ wellFormedASN "ASabc" = false := by
  refine ⟨by decide, by decide⟩

/-- C8 amended: whenever a Cymru origin answer with a usable first TXT
string is obtained, the returned `asn` is `"AS"` immediately followed by
the trimmed first pipe-delimited field of that string — no digit
validation is performed, so `asn` is `"AS"` plus decimal digits exactly
when that field is a nonempty digit string. -/
theorem lookupASN_asn_shape (exchange : Exchange)
    (parse16 : String → Option (List Nat)) (ip qname : String) (resp : Msg)
    (s : String) (ss : List String) (rest : List RR)
    (hq : buildOriginQuery parse16 ip = some qname)
    (he : exchange (originQuery qname) = some resp)
    (ha : resp.answer = RR.txt (s :: ss) :: rest) :
    ∃ info, LookupASN exchange parse16 ip = some info
      ∧ info.asn = "AS" ++ goTrimSpace ((goSplitN " | " 5 s).headD "")
      ∧ ((goTrimSpace ((goSplitN " | " 5 s).headD "")).toList ≠ [] →
        (goTrimSpace ((goSplitN " | " 5 s).headD "")).toList.all Char.isDigit = true →
        wellFormedASN info.asn = true) := by
  refine ⟨lookupASName exchange (goTrimSpace ((goSplitN " | " 5 s).headD "")),
    lookupASN_success_eq exchange parse16 ip qname resp s ss rest hq he ha,
    lookupASName_asn exchange (goTrimSpace ((goSplitN " | " 5 s).headD "")), ?_⟩
  intro h1 h2
  rw [lookupASName_asn exchange (goTrimSpace ((goSplitN " | " 5 s).headD ""))]
  exact wellFormedASN_AS_append (goTrimSpace ((goSplitN " | " 5 s).headD "")) h1 h2

/-- C8 amended witness: with the well-formed AS13335 origin payload the
returned `asn` is well-formed. -/
theorem lookupASN_asn_shape_witness :
    ∃ info, LookupASN exOriginGood p16none "1.2.3.4" = some info
      ∧ wellFormedASN info.asn = true := by
  obtain ⟨info, h1, _, h3⟩ := lookupASN_asn_shape exOriginGood p16none "1.2.3.4"
    "4.3.2.1.origin.asn.cymru.com." (Msg.mk 0 [RR.txt [s13335]] [] [])
    s13335 [] [] (by decide) (by decide) rfl
  exact ⟨info, h1, h3 (by decide) (by decide)⟩

/-- C9: each TXT answer's string segments are concatenated; a concatenated
value longer than 60 characters is replaced by exactly its first 57
characters plus the 3-character `"..."` marker (total length 60), and a
value of length at most 60 is returned untouched. -/
theorem txt_truncation (exchange : Exchange) (nm : String) (resp : Msg) (v : String)
    (h : exchange (Query.mk "8.8.8.8:53" nm typeTXT true) = some resp) :
    queryTXT exchange nm = resp.answer.filterMap txtExtract
    ∧ (∀ strs, RR.txt strs ∈ resp.answer →
        truncTXT (String.join strs) ∈ queryTXT exchange nm)
    ∧ (v.length ≤ 60 → truncTXT v = v)
    ∧ (60 < v.length →
        truncTXT v = goTake 57 v ++ "..."
        ∧ (goTake 57 v).length = 57
        ∧ ("..." : String).length = 3
        ∧ (truncTXT v).length = 60) := by
  have hq : queryTXT exchange nm = resp.answer.filterMap txtExtract := by
    unfold queryTXT
    rw [h]
  refine ⟨hq, ?_, ?_, ?_⟩
  · intro strs hmem
    rw [hq]
    exact List.mem_filterMap.mpr ⟨RR.txt strs, hmem, rfl⟩
  · intro hle
    unfold truncTXT
    rw [if_neg (by omega)]
  · intro hgt
    have htake : (goTake 57 v).length = 57 := by
      show (v.toList.take 57).length = 57
      rw [List.length_take]
      have : v.toList.length = v.length := rfl
      omega
    have heq : truncTXT v = goTake 57 v ++ "..." := by
      unfold truncTXT
      rw [if_pos (by omega)]
    refine ⟨heq, htake, rfl, ?_⟩
    rw [heq, String.length_append, htake]
    decide

/-- C9 witness: a 61-character TXT value is truncated to 57 characters plus
the marker, and the aggregation output is the per-answer extraction. -/
theorem txt_truncation_witness :
    queryTXT exTXTLong "t.example." = msgLong.answer.filterMap txtExtract
    ∧ truncTXT longV = goTake 57 longV ++ "..."
    ∧ (truncTXT longV).length = 60
    ∧ truncTXT "hello" = "hello" :=
  ⟨(txt_truncation exTXTLong "t.example." msgLong longV rfl).1,
   ((txt_truncation exTXTLong "t.example." msgLong longV rfl).2.2.2 (by decide)).1,
   ((txt_truncation exTXTLong "t.example." msgLong longV rfl).2.2.2 (by decide)).2.2.2,
   (txt_truncation exTXTLong "t.example." msgLong "hello" rfl).2.2.1 (by decide)⟩

/-- C10: the A, AAAA and CNAME queries of `GetRecords` share one extractor
that accepts all three record types from the answer section regardless of
the query type asked; in particular CNAME targets (trailing dot stripped)
returned to an A query appear in `Records.A` alongside the addresses, in
response order. -/
theorem shared_record_extractor (exchange : Exchange) (domain : String) :
    (∀ resp, exchange (Query.mk "8.8.8.8:53" (dnsFqdn domain) typeA true) = some resp →
      (GetRecords exchange domain).A = resp.answer.filterMap extractRecord
      ∧ ∀ t, RR.cname t ∈ resp.answer →
          goTrimSuffixDot t ∈ (GetRecords exchange domain).A)
    ∧ (∀ resp, exchange (Query.mk "8.8.8.8:53" (dnsFqdn domain) typeAAAA true) = some resp →
      (GetRecords exchange domain).AAAA = resp.answer.filterMap extractRecord)
    ∧ (∀ resp, exchange (Query.mk "8.8.8.8:53" (dnsFqdn domain) typeCNAME true) = some resp →
      (GetRecords exchange domain).CNAME = resp.answer.filterMap extractRecord) := by
  refine ⟨?_, ?_, ?_⟩
  · intro resp h
    have hA : (GetRecords exchange domain).A = resp.answer.filterMap extractRecord := by
      show queryRecords exchange (dnsFqdn domain) typeA = resp.answer.filterMap extractRecord
      unfold queryRecords
      rw [h]
    refine ⟨hA, ?_⟩
    intro t hmem
    rw [hA]
    exact List.mem_filterMap.mpr ⟨RR.cname t, hmem, rfl⟩
  · intro resp h
    show queryRecords exchange (dnsFqdn domain) typeAAAA = resp.answer.filterMap extractRecord
    unfold queryRecords
    rw [h]
  · intro resp h
    show queryRecords exchange (dnsFqdn domain) typeCNAME = resp.answer.filterMap extractRecord
    unfold queryRecords
    rw [h]

/-- C10 witness: an A query answered by an A record followed by a CNAME
record yields both, in response order, with the CNAME target stripped of
its trailing dot. -/
theorem shared_record_extractor_witness :
    (GetRecords exA10 "e.example").A = ["1.2.3.4", "alias.example"]
    ∧ goTrimSuffixDot "alias.example." ∈ (GetRecords exA10 "e.example").A :=
  ⟨(((shared_record_extractor exA10 "e.example").1 msgA10 (by decide)).1).trans (by decide),
   ((shared_record_extractor exA10 "e.example").1 msgA10 (by decide)).2
      "alias.example." (by decide)⟩

end DnsCrawler
